import Mathlib

/-!
# Verification of the echo-server request-introspection core

A shallow embedding, in Lean 4, of the decision logic of the echo-server
repository (Go): the JWT token extractor (`services/jwt.go`), the body
parser (`services/body.go`), the status-override helper
(`handlers/echo.go`) and the TLS certificate provisioner
(`services/tls.go`), together with theorems settling the specification's
claims about them.

Modelling conventions:
* Go strings and byte slices are `List Nat` of byte values (Go strings are
  byte sequences; `len`, slicing and `strings.Split` are byte-based).
* Go maps are association lists; map assignment is update-or-append.
* Functions of the Go standard library that the repository merely calls
  (`mime.ParseMediaType`, `url.ParseQuery`, `mime/multipart`'s part
  reader) are abstracted as parameters bundled in `Stdlib`; the library
  functions whose exact behaviour the claims depend on
  (`encoding/base64`, `encoding/json`, `unicode/utf8`, `strconv`) are
  modelled concretely.
* `float64` JSON numbers are modelled by their literal spelling
  (sign / integer digits / fraction digits / exponent), a refinement of
  float equality; the 30%-non-printable comparison
  `float64(n)/float64(len) > 0.3` is modelled by the exact rational
  comparison `10*n > 3*len`, which agrees with the float computation for
  every body below several petabytes.
-/

set_option maxHeartbeats 1000000

namespace EchoServer

/-- Go strings / byte slices: lists of byte values. -/
abbrev GoStr := List Nat

/-- Bytes of an ASCII Lean string literal (all literals used are ASCII,
where UTF-8 bytes coincide with code points). -/
def ascii (s : String) : GoStr := s.data.map Char.toNat

/-- `strings.HasPrefix` on byte strings. -/
def goHasPrefix : GoStr → GoStr → Bool
  | _, [] => true
  | [], _ :: _ => false
  | c :: s, p :: ps => c == p && goHasPrefix s ps

/-- ASCII lower-casing, modelling `strings.ToLower` on ASCII data. -/
def toLowerAscii (s : GoStr) : GoStr :=
  s.map fun c => if 65 ≤ c ∧ c ≤ 90 then c + 32 else c

/-- ASCII whitespace bytes, modelling `strings.TrimSpace`'s space class
on ASCII data. -/
def isSpaceByte (c : Nat) : Bool :=
  c == 32 || c == 9 || c == 10 || c == 11 || c == 12 || c == 13

/-- Drop leading ASCII space bytes. -/
def dropLeadingSpace : GoStr → GoStr
  | [] => []
  | c :: t => if isSpaceByte c then dropLeadingSpace t else c :: t

/-- `strings.TrimSpace` (ASCII model). -/
def trimSpaceAscii (s : GoStr) : GoStr :=
  (dropLeadingSpace ((dropLeadingSpace s.reverse)).reverse)

/-- `strings.Split(s, sep)` for a one-byte separator: Go semantics
(`Split("", ".") = [""]`, empty fields kept). -/
def splitOnByte (sep : Nat) : GoStr → List GoStr
  | [] => [[]]
  | c :: t =>
    if c = sep then [] :: splitOnByte sep t
    else
      match splitOnByte sep t with
      | h :: r => (c :: h) :: r
      | [] => [[c]]

/-- Assoc-list lookup, modelling a Go map read. -/
def lookupAssoc {α : Type} (m : List (GoStr × α)) (k : GoStr) : Option α :=
  match m with
  | [] => none
  | (k', v) :: t => if k' = k then some v else lookupAssoc t k

/-- Go map assignment `m[k] = v`: replace in place or append. -/
def mapSet {α : Type} (m : List (GoStr × α)) (k : GoStr) (v : α) :
    List (GoStr × α) :=
  match m with
  | [] => [(k, v)]
  | (k', v') :: t => if k' = k then (k, v) :: t else (k', v') :: mapSet t k v

/-! ## UTF-8 validity (`unicode/utf8.Valid`) -/

/-- UTF-8 continuation byte. -/
def isCont (c : Nat) : Bool := 128 ≤ c && c ≤ 191

/-- The scanning loop of `utf8.Valid`: RFC 3629 UTF-8, rejecting
surrogates, overlongs and code points above U+10FFFF. The loop consumes
at least one byte per step, so `length + 1` fuel always suffices. -/
def utf8Loop : Nat → GoStr → Bool
  | 0, _ => false
  | fuel + 1, l =>
    match l with
    | [] => true
    | c :: t =>
      if c < 128 then utf8Loop fuel t
      else if 194 ≤ c ∧ c ≤ 223 then
        match t with
        | c1 :: t1 => isCont c1 && utf8Loop fuel t1
        | [] => false
      else if c = 224 then
        match t with
        | c1 :: c2 :: t2 => (160 ≤ c1 && c1 ≤ 191) && isCont c2 && utf8Loop fuel t2
        | _ => false
      else if 225 ≤ c ∧ c ≤ 236 then
        match t with
        | c1 :: c2 :: t2 => isCont c1 && isCont c2 && utf8Loop fuel t2
        | _ => false
      else if c = 237 then
        match t with
        | c1 :: c2 :: t2 => (128 ≤ c1 && c1 ≤ 159) && isCont c2 && utf8Loop fuel t2
        | _ => false
      else if 238 ≤ c ∧ c ≤ 239 then
        match t with
        | c1 :: c2 :: t2 => isCont c1 && isCont c2 && utf8Loop fuel t2
        | _ => false
      else if c = 240 then
        match t with
        | c1 :: c2 :: c3 :: t3 =>
          (144 ≤ c1 && c1 ≤ 191) && isCont c2 && isCont c3 && utf8Loop fuel t3
        | _ => false
      else if 241 ≤ c ∧ c ≤ 243 then
        match t with
        | c1 :: c2 :: c3 :: t3 => isCont c1 && isCont c2 && isCont c3 && utf8Loop fuel t3
        | _ => false
      else if c = 244 then
        match t with
        | c1 :: c2 :: c3 :: t3 =>
          (128 ≤ c1 && c1 ≤ 143) && isCont c2 && isCont c3 && utf8Loop fuel t3
        | _ => false
      else false

/-- `utf8.Valid` from the Go standard library. -/
def utf8Valid (l : GoStr) : Bool := utf8Loop (l.length + 1) l

/-! ## Base64 (`encoding/base64`) -/

/-- Value of a standard-alphabet base64 character. -/
def b64val (c : Nat) : Option Nat :=
  if 65 ≤ c ∧ c ≤ 90 then some (c - 65)
  else if 97 ≤ c ∧ c ≤ 122 then some (c - 97 + 26)
  else if 48 ≤ c ∧ c ≤ 57 then some (c - 48 + 52)
  else if c = 43 then some 62
  else if c = 47 then some 63
  else none

/-- Standard-alphabet base64 character for a 6-bit value. -/
def b64chr (v : Nat) : Nat :=
  if v < 26 then 65 + v
  else if v < 52 then 97 + (v - 26)
  else if v < 62 then 48 + (v - 52)
  else if v = 62 then 43
  else 47

/-- Decode a newline-free base64 stream quad by quad, with Go's padding
rules (`=` only closing the final quad, non-canonical trailing bits
accepted, as `StdEncoding` does). -/
def b64decQuads : GoStr → Option GoStr
  | [] => some []
  | c0 :: c1 :: c2 :: c3 :: rest =>
    match b64val c0, b64val c1 with
    | some v0, some v1 =>
      if c2 = 61 then
        if c3 = 61 ∧ rest = [] then some [v0 * 4 + v1 / 16] else none
      else
        match b64val c2 with
        | some v2 =>
          if c3 = 61 then
            if rest = [] then some [v0 * 4 + v1 / 16, v1 % 16 * 16 + v2 / 4]
            else none
          else
            match b64val c3 with
            | some v3 =>
              (b64decQuads rest).map fun tl =>
                (v0 * 4 + v1 / 16) :: (v1 % 16 * 16 + v2 / 4) :: (v2 % 4 * 64 + v3) :: tl
            | none => none
        | none => none
    | _, _ => none
  | _ => none

/-- `base64.StdEncoding.DecodeString`: the decoder ignores `\r` and `\n`
and otherwise consumes padded quads. -/
def b64Decode (s : GoStr) : Option GoStr :=
  b64decQuads (s.filter fun c => ¬(c = 10 ∨ c = 13))

/-- `base64.StdEncoding.EncodeToString`: standard alphabet with `=`
padding. -/
def b64Encode : GoStr → GoStr
  | b0 :: b1 :: b2 :: rest =>
    b64chr (b0 / 4) :: b64chr (b0 % 4 * 16 + b1 / 16) ::
      b64chr (b1 % 16 * 4 + b2 / 64) :: b64chr (b2 % 64) :: b64Encode rest
  | [b0, b1] => [b64chr (b0 / 4), b64chr (b0 % 4 * 16 + b1 / 16), b64chr (b1 % 16 * 4), 61]
  | [b0] => [b64chr (b0 / 4), b64chr (b0 % 4 * 16), 61, 61]
  | [] => []

inductive GoVal : Type where
  | vnull : GoVal
  | vbool (b : Bool) : GoVal
  | vnum (neg : Bool) (ip : GoStr) (fr : GoStr) (hasE : Bool) (eNeg : Bool) (ed : GoStr) : GoVal
  | vstr (s : GoStr) : GoVal
  | vint (n : Nat) : GoVal
  | varr (xs : List GoVal) : GoVal
  | vmap (kvs : List (GoStr × GoVal)) : GoVal
deriving Repr

/-- JSON whitespace bytes. -/
def isWs (c : Nat) : Bool := c == 32 || c == 9 || c == 10 || c == 13

/-- Skip JSON whitespace. -/
def skipWs : GoStr → GoStr
  | [] => []
  | c :: t => if isWs c then skipWs t else c :: t

/-- ASCII decimal digit byte. -/
def isDigitByte (c : Nat) : Bool := 48 ≤ c && c ≤ 57

/-- Leading run of decimal digit bytes, and the rest. -/
def scanDigits : GoStr → GoStr × GoStr
  | [] => ([], [])
  | c :: t =>
    if isDigitByte c then
      let (ds, r) := scanDigits t
      (c :: ds, r)
    else ([], c :: t)

/-- Third phase of the JSON number scanner: optional exponent
(`e`/`E`, optional sign, required digits). -/
def scanExp (neg : Bool) (ip fr : GoStr) (l : GoStr) : Option (GoVal × GoStr) :=
  match l with
  | 101 :: 45 :: u | 69 :: 45 :: u =>
    (match scanDigits u with
     | ([], _) => none
     | (es, t2) => some (.vnum neg ip fr true true es, t2))
  | 101 :: 43 :: u | 69 :: 43 :: u =>
    (match scanDigits u with
     | ([], _) => none
     | (es, t2) => some (.vnum neg ip fr true false es, t2))
  | 101 :: u | 69 :: u =>
    (match scanDigits u with
     | ([], _) => none
     | (es, t2) => some (.vnum neg ip fr true false es, t2))
  | _ => some (.vnum neg ip fr false false [], l)

/-- Second phase of the JSON number scanner: optional fraction. -/
def scanFrac (neg : Bool) (ip : GoStr) (l : GoStr) : Option (GoVal × GoStr) :=
  match l with
  | 46 :: t =>
    match scanDigits t with
    | ([], _) => none
    | (fs, t2) => scanExp neg ip fs t2
  | _ => scanExp neg ip [] l

/-- The JSON number scanner (`encoding/json` grammar:
`-? (0 | [1-9][0-9]*) (. [0-9]+)? ([eE] [+-]? [0-9]+)?`). -/
def scanNumber (l : GoStr) : Option (GoVal × GoStr) :=
  match l with
  | 45 :: 48 :: t => scanFrac true [48] t
  | 45 :: c :: t =>
    if 49 ≤ c ∧ c ≤ 57 then
      match scanDigits t with
      | (ds, t2) => scanFrac true (c :: ds) t2
    else none
  | 48 :: t => scanFrac false [48] t
  | c :: t =>
    if 49 ≤ c ∧ c ≤ 57 then
      match scanDigits t with
      | (ds, t2) => scanFrac false (c :: ds) t2
    else none
  | _ => none

/-- Hex digit value. -/
def hexv (c : Nat) : Option Nat :=
  if 48 ≤ c ∧ c ≤ 57 then some (c - 48)
  else if 97 ≤ c ∧ c ≤ 102 then some (c - 97 + 10)
  else if 65 ≤ c ∧ c ≤ 70 then some (c - 65 + 10)
  else none

/-- UTF-8 bytes of a code point (standard encoding; callers guarantee
`cp < 0x110000`). -/
def utf8EncodeCp (cp : Nat) : GoStr :=
  if cp < 128 then [cp]
  else if cp < 2048 then [192 + cp / 64, 128 + cp % 64]
  else if cp < 65536 then [224 + cp / 4096, 128 + cp / 64 % 64, 128 + cp % 64]
  else [240 + cp / 262144, 128 + cp / 4096 % 64, 128 + cp / 64 % 64, 128 + cp % 64]

/-- Parse four hex digits. -/
def getu4 : GoStr → Option (Nat × GoStr)
  | h1 :: h2 :: h3 :: h4 :: t =>
    match hexv h1, hexv h2, hexv h3, hexv h4 with
    | some a, some b, some c, some d => some (((a * 16 + b) * 16 + c) * 16 + d, t)
    | _, _, _, _ => none
  | _ => none

/-- Body of a JSON string after the opening quote, per Go's scanner and
`unquoteBytes`: bytes below 0x20 are rejected, escapes are decoded,
`\uXXXX` pairs of surrogates are combined (lone surrogates become
U+FFFD), and invalid UTF-8 bytes are replaced by U+FFFD one byte at a
time. Returns the decoded bytes and the rest after the closing quote. -/
def parseStrLoop : Nat → GoStr → Option (GoStr × GoStr)
  | 0, _ => none
  | fuel + 1, l =>
  match l with
  | [] => none
  | 34 :: t => some ([], t)
  | 92 :: e :: t =>
    match e with
    | 34 => (parseStrLoop fuel t).map fun (s, r) => (34 :: s, r)
    | 92 => (parseStrLoop fuel t).map fun (s, r) => (92 :: s, r)
    | 47 => (parseStrLoop fuel t).map fun (s, r) => (47 :: s, r)
    | 98 => (parseStrLoop fuel t).map fun (s, r) => (8 :: s, r)
    | 102 => (parseStrLoop fuel t).map fun (s, r) => (12 :: s, r)
    | 110 => (parseStrLoop fuel t).map fun (s, r) => (10 :: s, r)
    | 114 => (parseStrLoop fuel t).map fun (s, r) => (13 :: s, r)
    | 116 => (parseStrLoop fuel t).map fun (s, r) => (9 :: s, r)
    | 117 =>
      match t with
      | h1 :: h2 :: h3 :: h4 :: t1 =>
        match hexv h1, hexv h2, hexv h3, hexv h4 with
        | some a, some b, some c', some d =>
          let cp := ((a * 16 + b) * 16 + c') * 16 + d
          if 55296 ≤ cp ∧ cp < 57344 then
            match t1 with
            | 92 :: 117 :: k1 :: k2 :: k3 :: k4 :: t3 =>
              match hexv k1, hexv k2, hexv k3, hexv k4 with
              | some a2, some b2, some c2, some d2 =>
                let cp2 := ((a2 * 16 + b2) * 16 + c2) * 16 + d2
                if 55296 ≤ cp ∧ cp < 56320 ∧ 56320 ≤ cp2 ∧ cp2 < 57344 then
                  (parseStrLoop fuel t3).map fun (s, r) =>
                    (utf8EncodeCp (65536 + (cp - 55296) * 1024 + (cp2 - 56320)) ++ s, r)
                else
                  (parseStrLoop fuel t1).map fun (s, r) => (239 :: 191 :: 189 :: s, r)
              | _, _, _, _ =>
                (parseStrLoop fuel t1).map fun (s, r) => (239 :: 191 :: 189 :: s, r)
            | _ => (parseStrLoop fuel t1).map fun (s, r) => (239 :: 191 :: 189 :: s, r)
          else
            (parseStrLoop fuel t1).map fun (s, r) => (utf8EncodeCp cp ++ s, r)
        | _, _, _, _ => none
      | _ => none
    | _ => none
  | c :: t =>
    if c < 32 then none
    else if c < 128 then (parseStrLoop fuel t).map fun (s, r) => (c :: s, r)
    else if 194 ≤ c ∧ c ≤ 223 then
      match t with
      | c1 :: t1 =>
        if isCont c1 then (parseStrLoop fuel t1).map fun (s, r) => (c :: c1 :: s, r)
        else (parseStrLoop fuel t).map fun (s, r) => (239 :: 191 :: 189 :: s, r)
      | [] => none
    else if 224 ≤ c ∧ c ≤ 239 then
      match t with
      | c1 :: c2 :: t2 =>
        if (if c = 224 then 160 ≤ c1 && c1 ≤ 191
            else if c = 237 then 128 ≤ c1 && c1 ≤ 159
            else isCont c1) && isCont c2 then
          (parseStrLoop fuel t2).map fun (s, r) => (c :: c1 :: c2 :: s, r)
        else (parseStrLoop fuel t).map fun (s, r) => (239 :: 191 :: 189 :: s, r)
      | _ => (parseStrLoop fuel t).map fun (s, r) => (239 :: 191 :: 189 :: s, r)
    else if 240 ≤ c ∧ c ≤ 244 then
      match t with
      | c1 :: c2 :: c3 :: t3 =>
        if (if c = 240 then 144 ≤ c1 && c1 ≤ 191
            else if c = 244 then 128 ≤ c1 && c1 ≤ 143
            else isCont c1) && isCont c2 && isCont c3 then
          (parseStrLoop fuel t3).map fun (s, r) => (c :: c1 :: c2 :: c3 :: s, r)
        else (parseStrLoop fuel t).map fun (s, r) => (239 :: 191 :: 189 :: s, r)
      | _ => (parseStrLoop fuel t).map fun (s, r) => (239 :: 191 :: 189 :: s, r)
    else (parseStrLoop fuel t).map fun (s, r) => (239 :: 191 :: 189 :: s, r)

/-- Body of a JSON string after the opening quote (see `parseStrLoop`):
the loop consumes at least one byte per step, so `length + 1` fuel
always suffices. -/
def parseStrBody (l : GoStr) : Option (GoStr × GoStr) :=
  parseStrLoop (l.length + 1) l

mutual

/-- JSON value parser (model of `encoding/json`'s scanner + decoder for
an `interface{}` target). Fuel decreases on every recursive call; the
entry points supply `input.length + 1`, which the round-trip lemmas show
is always enough. -/
def parseVal : Nat → GoStr → Option (GoVal × GoStr)
  | 0, _ => none
  | fuel + 1, l =>
    match skipWs l with
    | 110 :: 117 :: 108 :: 108 :: t => some (.vnull, t)
    | 116 :: 114 :: 117 :: 101 :: t => some (.vbool true, t)
    | 102 :: 97 :: 108 :: 115 :: 101 :: t => some (.vbool false, t)
    | 34 :: t => (parseStrBody t).map fun (s, r) => (.vstr s, r)
    | 123 :: t =>
      (match skipWs t with
       | 125 :: r => some (.vmap [], r)
       | _ => parseMembers fuel [] t)
    | 91 :: t =>
      (match skipWs t with
       | 93 :: r => some (.varr [], r)
       | _ => parseElems fuel [] t)
    | l' => scanNumber l'

/-- Members of a JSON object after the opening `{` (at least one member
present), accumulating into a Go map with last-key-wins assignment. -/
def parseMembers : Nat → List (GoStr × GoVal) → GoStr →
    Option (GoVal × GoStr)
  | 0, _, _ => none
  | fuel + 1, acc, l =>
    match skipWs l with
    | 34 :: t =>
      match parseStrBody t with
      | some (k, r) =>
        (match skipWs r with
         | 58 :: r2 =>
           match parseVal fuel r2 with
           | some (v, r3) =>
             (match skipWs r3 with
              | 44 :: r4 => parseMembers fuel (mapSet acc k v) r4
              | 125 :: r4 => some (.vmap (mapSet acc k v), r4)
              | _ => none)
           | none => none
         | _ => none)
      | none => none
    | _ => none

/-- Elements of a JSON array after the opening `[` (at least one element
present). -/
def parseElems : Nat → List GoVal → GoStr → Option (GoVal × GoStr)
  | 0, _, _ => none
  | fuel + 1, acc, l =>
    match parseVal fuel l with
    | some (v, r) =>
      (match skipWs r with
       | 44 :: r2 => parseElems fuel (acc ++ [v]) r2
       | 93 :: r2 => some (.varr (acc ++ [v]), r2)
       | _ => none)
    | none => none

end

/-- `json.Unmarshal(data, &v)` for `v : map[string]interface{}`
(`decodeBase64URL`'s use): the whole input must be one JSON value with
only whitespace around it; a JSON object fills the map, JSON `null`
leaves it `nil` (modelled `none`) without error, anything else is a
type error. -/
def unmarshalMap (data : GoStr) : Except Unit (Option (List (GoStr × GoVal))) :=
  match parseVal (data.length + 1) data with
  | some (v, rest) =>
    if skipWs rest = [] then
      match v with
      | .vmap kvs => .ok (some kvs)
      | .vnull => .ok none
      | _ => .error ()
    else .error ()
  | none => .error ()

/-- `json.Unmarshal(data, &v)` for `v : interface{}` (`parseJSON`'s
use). -/
def unmarshalAny (data : GoStr) : Except Unit GoVal :=
  match parseVal (data.length + 1) data with
  | some (v, rest) => if skipWs rest = [] then .ok v else .error ()
  | none => .error ()

/-! ### JSON serialization (spec-side encoder for the round-trip claim) -/

/-- Hex digit byte (lower case) for a value below 16. -/
def hexDigitByte (v : Nat) : Nat := if v < 10 then 48 + v else 97 + (v - 10)

/-- Escape one byte of a JSON string: `"` and `\` get a backslash,
control bytes become `\u00XX`, everything else is passed through. -/
def escByte (c : Nat) : GoStr :=
  if c = 34 then [92, 34]
  else if c = 92 then [92, 92]
  else if c < 32 then [92, 117, 48, 48, hexDigitByte (c / 16), hexDigitByte (c % 16)]
  else [c]

/-- Escape a string body byte by byte. -/
def escBody : GoStr → GoStr
  | [] => []
  | c :: t => escByte c ++ escBody t

/-- Serialize a string with its quotes. -/
def serStr (s : GoStr) : GoStr := 34 :: escBody s ++ [34]

/-- Decimal digits of a natural number (for `vint`). -/
def natDigits (n : Nat) : GoStr :=
  (Nat.toDigits 10 n).map Char.toNat

/-- Render a JSON number literal from its parsed pieces. -/
def renderNum (neg : Bool) (ip fr : GoStr) (hasE eNeg : Bool) (ed : GoStr) : GoStr :=
  (if neg then [45] else []) ++ ip ++ (if fr = [] then [] else 46 :: fr) ++
    (if hasE then 101 :: ((if eNeg then [45] else []) ++ ed) else [])

mutual

/-- Serialize a `GoVal` to JSON bytes. -/
def serVal : GoVal → GoStr
  | .vnull => [110, 117, 108, 108]
  | .vbool true => [116, 114, 117, 101]
  | .vbool false => [102, 97, 108, 115, 101]
  | .vnum neg ip fr hasE eNeg ed => renderNum neg ip fr hasE eNeg ed
  | .vstr s => serStr s
  | .vint n => natDigits n
  | .varr [] => [91, 93]
  | .varr (x :: xs) => 91 :: serElemsTail x xs ++ [93]
  | .vmap [] => [123, 125]
  | .vmap ((k, v) :: kvs) => 123 :: serMembersTail k v kvs ++ [125]
  termination_by v => sizeOf v
  decreasing_by all_goals (simp_wf; try omega)

/-- Comma-separated serialization of a nonempty array, head first. -/
def serElemsTail : GoVal → List GoVal → GoStr
  | x, [] => serVal x
  | x, y :: ys => serVal x ++ 44 :: serElemsTail y ys
  termination_by x xs => 1 + sizeOf x + sizeOf xs
  decreasing_by all_goals (simp_wf; try omega)

/-- Comma-separated serialization of a nonempty member list, head
first. -/
def serMembersTail : GoStr → GoVal → List (GoStr × GoVal) → GoStr
  | k, v, [] => serStr k ++ 58 :: serVal v
  | k, v, (k2, v2) :: kvs => serStr k ++ 58 :: serVal v ++ 44 :: serMembersTail k2 v2 kvs
  termination_by _ v kvs => 1 + sizeOf v + sizeOf kvs
  decreasing_by all_goals (simp_wf; try omega)

end

/-- No key of the list occurs twice (`map[string]…` key uniqueness). -/
def keysFresh : List (GoStr × GoVal) → Bool
  | [] => true
  | (k, _) :: t => !(t.map Prod.fst).contains k && keysFresh t

mutual

/-- Well-formedness of a `GoVal` as a value `json.Unmarshal` can
produce: strings are valid UTF-8, numbers follow the JSON literal
grammar, map keys are valid UTF-8 and distinct, `vint` (a Go `int`,
never produced by `Unmarshal`) is excluded. -/
def JwfV : GoVal → Bool
  | .vnull => true
  | .vbool _ => true
  | .vnum _ ip fr hasE eNeg ed =>
    ip.all isDigitByte && !ip.isEmpty &&
      (decide (ip.length ≤ 1) || decide (ip.head? ≠ some 48)) &&
      fr.all isDigitByte &&
      (if hasE then ed.all isDigitByte && !ed.isEmpty else !eNeg && ed.isEmpty)
  | .vstr s => utf8Valid s
  | .vint _ => false
  | .varr xs => JwfElems xs
  | .vmap kvs => keysFresh kvs && JwfMembers kvs

/-- Well-formedness of array elements. -/
def JwfElems : List GoVal → Bool
  | [] => true
  | x :: xs => JwfV x && JwfElems xs

/-- Well-formedness of object members. -/
def JwfMembers : List (GoStr × GoVal) → Bool
  | [] => true
  | (k, v) :: kvs => utf8Valid k && JwfV v && JwfMembers kvs

end

mutual

/-- Fuel bound for parsing the serialization of a value: one unit per
structural parse step. -/
def nfVal : GoVal → Nat
  | .varr xs => 1 + nfElems xs
  | .vmap kvs => 1 + nfMembers kvs
  | _ => 1

/-- Fuel bound for array elements: the parser hands the same decremented
fuel to the element parse and to the rest of the list. -/
def nfElems : List GoVal → Nat
  | [] => 1
  | x :: xs => 1 + max (nfVal x) (nfElems xs)

/-- Fuel bound for object members. -/
def nfMembers : List (GoStr × GoVal) → Nat
  | [] => 1
  | (_, v) :: kvs => 1 + max (nfVal v) (nfMembers kvs)

end

/-! ## JWT service (`services/jwt.go`) -/

/-- `models.JwtInfo`: the Go maps `Header`/`Payload` may be `nil`
(`none`) — the struct's zero value, also what unmarshalling JSON `null`
leaves behind. -/
structure JwtInfo where
  RawToken : GoStr
  Header : Option (List (GoStr × GoVal)) := none
  Payload : Option (List (GoStr × GoVal)) := none
deriving Repr

/-- `truncateToken`: tokens longer than 30 bytes are shown as
`first10 ++ "..." ++ last10`. -/
def truncateToken (token : GoStr) : GoStr :=
  if token.length ≤ 30 then token
  else token.take 10 ++ ascii "..." ++ token.drop (token.length - 10)

/-- `decodeBase64URL`: remap the URL alphabet to the standard one, pad
to a multiple of 4, decode base64, then JSON-unmarshal into a
`map[string]interface{}`. -/
def decodeBase64URL (input : GoStr) : Except Unit (Option (List (GoStr × GoVal))) :=
  let i1 := input.map fun c => if c = 45 then 43 else c
  let i2 := i1.map fun c => if c = 95 then 47 else c
  let padding := (4 - i2.length % 4) % 4
  let i3 := i2 ++ List.replicate padding 61
  match b64Decode i3 with
  | none => .error ()
  | some decoded => unmarshalMap decoded

/-- `decodeJWT`: reject the empty token and any token without exactly 3
dot-separated parts, then decode the first two parts; a decode error in
either discards the token. -/
def decodeJWT (token : GoStr) : Option JwtInfo :=
  if token = [] then none
  else
    match splitOnByte 46 token with
    | [p0, p1, _] =>
      let info : JwtInfo := { RawToken := truncateToken token }
      match decodeBase64URL p0 with
      | .error _ => none
      | .ok header =>
        match decodeBase64URL p1 with
        | .error _ => none
        | .ok payload => some { info with Header := header, Payload := payload }
    | _ => none

/-- One step of `ExtractAndDecodeJWTs`'s loop over configured header
names: exact-case lookup, lower-case fallback, `Bearer ` strip,
decode. -/
def extractStep (headers : List (GoStr × GoStr)) (acc : List (GoStr × JwtInfo))
    (headerName : GoStr) : List (GoStr × JwtInfo) :=
  let token0 := (lookupAssoc headers headerName).getD []
  let token1 := if token0 = [] then (lookupAssoc headers (toLowerAscii headerName)).getD []
                else token0
  if token1 = [] then acc
  else
    let token2 := if goHasPrefix (toLowerAscii token1) (ascii "bearer ") then
                    trimSpaceAscii (token1.drop 7)
                  else token1
    match decodeJWT token2 with
    | some info => mapSet acc headerName info
    | none => acc

/-- `ExtractAndDecodeJWTs` over a configured header-name list. -/
def ExtractAndDecodeJWTs (headerNames : List GoStr)
    (headers : List (GoStr × GoStr)) : List (GoStr × JwtInfo) :=
  if headers = [] then []
  else headerNames.foldl (extractStep headers) []

/-! ## Body service (`services/body.go`) -/

/-- A part delivered by `mime/multipart`'s `Reader.NextPart`, abstracted:
its form name, file name, whether `io.ReadAll` on it fails, and its
data. -/
structure MPart where
  formName : GoStr
  fileName : GoStr
  readErr : Bool
  data : GoStr

/-- One event of the `NextPart` loop: a part, or a stream-level error
(`err != io.EOF`); the end of the list is `io.EOF`. -/
inductive PartEvent : Type where
  | part (p : MPart) : PartEvent
  | readFail : PartEvent

/-- The standard-library collaborators of `ParseBody` that the service
merely calls, abstracted as parameters: `mime.ParseMediaType`,
`url.ParseQuery` (values map, preserving multiplicity), and the
multipart part stream for given data and boundary. -/
structure Stdlib where
  parseMediaType : GoStr → Except Unit (GoStr × List (GoStr × GoStr))
  parseQuery : GoStr → Except Unit (List (GoStr × List GoStr))
  nextParts : GoStr → GoStr → List PartEvent

/-- `BodyService`: the configured cap (default `10 * 1024 * 1024`). -/
structure BodyService where
  maxBodySize : Nat

/-- Count of bytes below 0x20 other than newline, carriage return and
tab. -/
def nonPrintableCount (data : GoStr) : Nat :=
  data.countP fun b => decide (b < 32) && !(b == 10) && !(b == 13) && !(b == 9)

/-- `isBinaryData`: a NUL byte, invalid UTF-8, or more than 30%
non-printable bytes. The float comparison
`float64(nonPrintable)/float64(len) > 0.3` is modelled exactly by
`10 * nonPrintable > 3 * len` (they agree for every realizable body
size). -/
def isBinaryData (data : GoStr) : Bool :=
  data.contains 0 || !utf8Valid data ||
    decide (10 * nonPrintableCount data > 3 * data.length)

/-- `parseJSON`: unmarshal into `interface{}`; on failure fall back to
the raw string. -/
def parseJSON (data : GoStr) : GoVal :=
  match unmarshalAny data with
  | .error _ => .vstr data
  | .ok v => v

/-- `parseXML`: always the raw string. -/
def parseXML (data : GoStr) : GoVal := .vstr data

/-- `parseFormURLEncoded`: `url.ParseQuery`, single values unwrapped,
repeated keys kept as a list; a parse error falls back to the raw
string. -/
def parseFormURLEncoded (lib : Stdlib) (data : GoStr) : GoVal :=
  match lib.parseQuery data with
  | .error _ => .vstr data
  | .ok values =>
    .vmap (values.map fun (k, vals) =>
      (k, match vals with
          | [v] => GoVal.vstr v
          | _ => GoVal.varr (vals.map GoVal.vstr)))

/-- The `NextPart` loop of `parseMultipartForm`: a stream error returns
the whole raw string; a part whose `ReadAll` fails or whose form name is
empty is skipped; file parts become a nested map, plain fields a
string. -/
def mpRun (data : GoStr) : List PartEvent → List (GoStr × GoVal) → GoVal
  | [], acc => .vmap acc
  | .readFail :: _, _ => .vstr data
  | .part p :: rest, acc =>
    if p.readErr then mpRun data rest acc
    else if p.formName = [] then mpRun data rest acc
    else if p.fileName ≠ [] then
      let fileInfo : GoVal := .vmap
        ([(ascii "filename", .vstr p.fileName), (ascii "size", .vint p.data.length)] ++
          (if isBinaryData p.data then
            [(ascii "content", GoVal.vstr (b64Encode p.data)),
             (ascii "encoding", GoVal.vstr (ascii "base64"))]
          else [(ascii "content", GoVal.vstr p.data)]))
      mpRun data rest (mapSet acc p.formName fileInfo)
    else mpRun data rest (mapSet acc p.formName (.vstr p.data))

/-- `parseMultipartForm`: no `boundary` parameter means the raw string;
otherwise run the part loop. -/
def parseMultipartForm (lib : Stdlib) (data : GoStr)
    (params : List (GoStr × GoStr)) : GoVal :=
  match lookupAssoc params (ascii "boundary") with
  | none => .vstr data
  | some boundary => mpRun data (lib.nextParts data boundary) []

/-- The content/isBinary computation of `ParseBody` on the (possibly
already truncated) bytes: media-type parse (falling back to the raw
header on error), binary short-circuit, then content-type dispatch. -/
def processBody (lib : Stdlib) (bodyBytes : GoStr) (contentType : GoStr) :
    GoVal × Bool :=
  let mp := match lib.parseMediaType contentType with
    | .ok r => r
    | .error _ => (contentType, [])
  let mediaType := mp.1
  if isBinaryData bodyBytes then (.vstr (b64Encode bodyBytes), true)
  else if goHasPrefix mediaType (ascii "application/json") then
    (parseJSON bodyBytes, false)
  else if goHasPrefix mediaType (ascii "application/xml") ||
      goHasPrefix mediaType (ascii "text/xml") then
    (parseXML bodyBytes, false)
  else if goHasPrefix mediaType (ascii "application/x-www-form-urlencoded") then
    (parseFormURLEncoded lib bodyBytes, false)
  else if goHasPrefix mediaType (ascii "multipart/form-data") then
    (parseMultipartForm lib bodyBytes mp.2, false)
  else if goHasPrefix mediaType (ascii "text/") then
    (.vstr bodyBytes, false)
  else if utf8Valid bodyBytes then (.vstr bodyBytes, false)
  else (.vstr (b64Encode bodyBytes), true)

/-- `models.BodyInfo`. -/
structure BodyInfo where
  ContentType : GoStr
  Size : Nat
  Content : GoVal
  IsBinary : Bool
  Truncated : Bool
deriving Repr

/-- `ParseBody`: empty body yields no descriptor; `Size` is the original
length; bytes beyond the cap are dropped (`Truncated` set) before any
classification or parsing. -/
def ParseBody (lib : Stdlib) (s : BodyService) (bodyBytes : GoStr)
    (contentType : GoStr) : Option BodyInfo :=
  if bodyBytes = [] then none
  else
    let size := bodyBytes.length
    let truncated := decide (bodyBytes.length > s.maxBodySize)
    let body := if bodyBytes.length > s.maxBodySize then
                  bodyBytes.take s.maxBodySize
                else bodyBytes
    let r := processBody lib body contentType
    some { ContentType := contentType, Size := size, Content := r.1,
           IsBinary := r.2, Truncated := truncated }

/-! ## Status override (`handlers/echo.go`, `getCustomStatusCode`) -/

/-- `strconv.Atoi`: optional sign, decimal digits, 64-bit range check. -/
def goAtoi (str : GoStr) : Except Unit Int :=
  let (neg, ds) :=
    match str with
    | 43 :: t => (false, t)
    | 45 :: t => (true, t)
    | _ => (false, str)
  if ds = [] then .error ()
  else if ds.all isDigitByte then
    let n : Nat := ds.foldl (fun a d => a * 10 + (d - 48)) 0
    let v : Int := if neg then -(n : Int) else (n : Int)
    if v < -(2 ^ 63) ∨ v > 2 ^ 63 - 1 then .error () else .ok v
  else .error ()

/-- `getCustomStatusCode`: empty header, a non-numeric value or one
outside `[200, 599]` gives `fiber.StatusOK` (200); otherwise the parsed
value. -/
def getCustomStatusCode (statusHeader : GoStr) : Int :=
  if statusHeader = [] then 200
  else
    match goAtoi statusHeader with
    | .error _ => 200
    | .ok statusCode =>
      if statusCode < 200 ∨ statusCode > 599 then 200 else statusCode

/-! ## TLS provisioning (`services/tls.go`) -/

/-- An X.509 name (the fields the generator sets). -/
structure PkixName where
  Organization : List GoStr
  CommonName : GoStr
deriving Repr, DecidableEq

/-- The certificate template fields set by
`generateSelfSignedCertificate`. -/
structure CertTemplate where
  SerialNumber : Nat
  Subject : PkixName
  NotBefore : Int
  NotAfter : Int
  kuKeyEncipherment : Bool
  kuDigitalSignature : Bool
  extKeyUsageServerAuth : Bool
  BasicConstraintsValid : Bool
  DNSNames : List GoStr

/-- The parsed leaf certificate. -/
structure X509Certificate where
  SerialNumber : Nat
  Subject : PkixName
  Issuer : PkixName
  NotBefore : Int
  NotAfter : Int
  kuKeyEncipherment : Bool
  kuDigitalSignature : Bool
  extKeyUsageServerAuth : Bool
  BasicConstraintsValid : Bool
  DNSNames : List GoStr

/-- `x509.CreateCertificate(rand, template, parent, pub, priv)`: the
issuer of the produced certificate is the parent's subject (self-signed
when `parent` is the same template). -/
def createCertificate (template parent : CertTemplate) : X509Certificate :=
  { SerialNumber := template.SerialNumber
    Subject := template.Subject
    Issuer := parent.Subject
    NotBefore := template.NotBefore
    NotAfter := template.NotAfter
    kuKeyEncipherment := template.kuKeyEncipherment
    kuDigitalSignature := template.kuDigitalSignature
    extKeyUsageServerAuth := template.extKeyUsageServerAuth
    BasicConstraintsValid := template.BasicConstraintsValid
    DNSNames := template.DNSNames }

/-- The process environment `GetOrGenerateCertificate` observes:
`os.Stat` outcomes for the two configured files, the outcome of
`tls.LoadX509KeyPair` on them, the fallible steps of generation
(`rsa.GenerateKey`, `rand.Int`, the PEM round-trip through
`tls.X509KeyPair`), the entropy behind the 128-bit serial, the
`os.Hostname` outcome, and the current time in nanoseconds. -/
structure TLSEnv where
  certFileOk : Bool
  keyFileOk : Bool
  loadKeyPair : Except Unit X509Certificate
  rsaGenOk : Bool
  serialRandOk : Bool
  serialRand : Nat
  hostnameRes : Except Unit GoStr
  now : Int
  keyPairReloadOk : Bool

/-- Nanoseconds per hour (`time.Hour`). -/
def nsPerHour : Int := 3600 * 1000000000

/-- The common name used by generation: `os.Hostname()`, falling back to
the literal `"echo-server"` on error or empty result. -/
def resolvedHostname (env : TLSEnv) : GoStr :=
  match env.hostnameRes with
  | .ok h => if h = [] then ascii "echo-server" else h
  | .error _ => ascii "echo-server"

/-- `generateSelfSignedCertificate`: 2048-bit key (fallible), serial
`rand.Int(rand.Reader, 1 << 128)` (uniform below `2^128`, modelled as
`serialRand % 2^128`), validity `now .. now + 365*24h`, fixed
organization, host-name common name, SANs `{hostname, "localhost"}`,
self-signed via `createCertificate template template`, then reloaded
from the PEM pair (fallible). -/
def generateSelfSignedCertificate (env : TLSEnv) : Except Unit X509Certificate :=
  if !env.rsaGenOk then .error ()
  else if !env.serialRandOk then .error ()
  else
    let serialNumber := env.serialRand % 2 ^ 128
    let hostname := resolvedHostname env
    let notBefore := env.now
    let notAfter := notBefore + 365 * 24 * nsPerHour
    let template : CertTemplate :=
      { SerialNumber := serialNumber
        Subject := { Organization := [ascii "Echo Server"], CommonName := hostname }
        NotBefore := notBefore
        NotAfter := notAfter
        kuKeyEncipherment := true
        kuDigitalSignature := true
        extKeyUsageServerAuth := true
        BasicConstraintsValid := true
        DNSNames := [hostname, ascii "localhost"] }
    let cert := createCertificate template template
    if !env.keyPairReloadOk then .error () else .ok cert

/-- `GetOrGenerateCertificate`: when both configured files stat
successfully, load them (a load failure is returned as a hard error);
otherwise generate a self-signed certificate. -/
def GetOrGenerateCertificate (env : TLSEnv) : Except Unit X509Certificate :=
  if env.certFileOk && env.keyFileOk then
    match env.loadKeyPair with
    | .error e => .error e
    | .ok cert => .ok cert
  else generateSelfSignedCertificate env

/-! ## Lemmas: base64 round trip -/

/-- The two alphabet-remapping passes of `decodeBase64URL`, fused. -/
def remapB64 (s : GoStr) : GoStr :=
  (s.map fun c => if c = 45 then 43 else c).map fun c => if c = 95 then 47 else c

theorem remapB64_nil : remapB64 [] = [] := rfl

theorem remapB64_cons (c : Nat) (t : GoStr) :
    remapB64 (c :: t) =
      ((fun c => if c = 95 then 47 else c) ((fun c => if c = 45 then 43 else c) c)) ::
        remapB64 t := rfl

theorem ser_null : serVal .vnull = [110, 117, 108, 108] := by simp [serVal]

theorem ser_true : serVal (.vbool true) = [116, 114, 117, 101] := by simp [serVal]

theorem ser_false : serVal (.vbool false) = [102, 97, 108, 115, 101] := by simp [serVal]

theorem ser_arr_nil : serVal (.varr []) = [91, 93] := by simp [serVal]

theorem ser_arr_cons (x : GoVal) (xs : List GoVal) :
    serVal (.varr (x :: xs)) = 91 :: serElemsTail x xs ++ [93] := by simp [serVal]

theorem ser_map_nil : serVal (.vmap []) = [123, 125] := by simp [serVal]

theorem ser_map_cons (k : GoStr) (v : GoVal) (kvs : List (GoStr × GoVal)) :
    serVal (.vmap ((k, v) :: kvs)) = 123 :: serMembersTail k v kvs ++ [125] := by
  simp [serVal]

theorem serElems_one (x : GoVal) : serElemsTail x [] = serVal x := by simp [serElemsTail]

theorem serElems_cons (x y : GoVal) (ys : List GoVal) :
    serElemsTail x (y :: ys) = serVal x ++ 44 :: serElemsTail y ys := by
  simp [serElemsTail]

theorem serMembers_one (k : GoStr) (v : GoVal) :
    serMembersTail k v [] = serStr k ++ 58 :: serVal v := by simp [serMembersTail]

theorem serMembers_cons (k : GoStr) (v : GoVal) (k2 : GoStr) (v2 : GoVal)
    (kvs : List (GoStr × GoVal)) :
    serMembersTail k v ((k2, v2) :: kvs) =
      serStr k ++ 58 :: serVal v ++ 44 :: serMembersTail k2 v2 kvs := by
  simp [serMembersTail]

theorem nf_arr_nil : nfVal (.varr xs) = 1 + nfElems xs := by simp [nfVal]

theorem nf_map : nfVal (.vmap kvs) = 1 + nfMembers kvs := by simp [nfVal]

theorem nfElems_cons (x : GoVal) (xs : List GoVal) :
    nfElems (x :: xs) = 1 + max (nfVal x) (nfElems xs) := by simp [nfElems]

theorem nfMembers_cons (k : GoStr) (v : GoVal) (kvs : List (GoStr × GoVal)) :
    nfMembers ((k, v) :: kvs) = 1 + max (nfVal v) (nfMembers kvs) := by simp [nfMembers]

mutual

theorem nfVal_le (v : GoVal) : nfVal v ≤ (serVal v).length + 1 := by
  cases v with
  | vnull => simp [nfVal, ser_null]
  | vbool b => cases b <;> simp [nfVal, ser_true, ser_false]
  | vnum neg ip fr hasE eNeg ed => simp [nfVal]
  | vstr s => simp [nfVal]
  | vint n => simp [nfVal]
  | varr xs =>
    cases xs with
    | nil => simp [nfVal, nfElems, ser_arr_nil]
    | cons x xs =>
      have h := nfElems_le x xs
      rw [nf_arr_nil, ser_arr_cons]
      simp only [List.length_cons, List.length_append]
      omega
  | vmap kvs =>
    cases kvs with
    | nil => simp [nfVal, nfMembers, ser_map_nil]
    | cons p kvs =>
      obtain ⟨k, v⟩ := p
      have h := nfMembers_le k v kvs
      rw [nf_map, ser_map_cons]
      simp only [List.length_cons, List.length_append]
      omega
  termination_by sizeOf v
  decreasing_by all_goals (simp_wf; try omega)

theorem nfElems_le (x : GoVal) (xs : List GoVal) :
    nfElems (x :: xs) ≤ (serElemsTail x xs).length + 2 := by
  cases xs with
  | nil =>
    have h := nfVal_le x
    have h1 : nfElems ([] : List GoVal) = 1 := rfl
    rw [nfElems_cons, serElems_one]
    omega
  | cons y ys =>
    have h1 := nfVal_le x
    have h2 := nfElems_le y ys
    rw [nfElems_cons, serElems_cons]
    simp only [List.length_append, List.length_cons]
    omega
  termination_by 1 + sizeOf x + sizeOf xs
  decreasing_by all_goals (simp_wf; try omega)

theorem nfMembers_le (k : GoStr) (v : GoVal) (kvs : List (GoStr × GoVal)) :
    nfMembers ((k, v) :: kvs) ≤ (serMembersTail k v kvs).length + 2 := by
  cases kvs with
  | nil =>
    have h := nfVal_le v
    have h1 : nfMembers ([] : List (GoStr × GoVal)) = 1 := rfl
    rw [nfMembers_cons, serMembers_one]
    simp only [List.length_append, List.length_cons]
    omega
  | cons p kvs =>
    obtain ⟨k2, v2⟩ := p
    have h1 := nfVal_le v
    have h2 := nfMembers_le k2 v2 kvs
    rw [nfMembers_cons, serMembers_cons]
    simp only [List.length_append, List.length_cons]
    omega
  termination_by 1 + sizeOf v + sizeOf kvs
  decreasing_by all_goals (simp_wf; try omega)

end

/-! ## Serialized bytes are below 256 -/

/-- A concrete `Stdlib` environment in which every delegated parser
fails and the part stream is empty. -/
def stubLib : Stdlib :=
  { parseMediaType := fun _ => .error ()
    parseQuery := fun _ => .error ()
    nextParts := fun _ _ => [] }

/-- The `isBinary` flag `processBody` computes is exactly
`isBinaryData` of the (possibly truncated) bytes: the final
base64 fallback fires only on invalid UTF-8, which `isBinaryData`
already reports. -/
theorem processBody_isBinary (lib : Stdlib) (b ct : GoStr) :
    (processBody lib b ct).2 = isBinaryData b := by
  unfold processBody
  rcases hbin : isBinaryData b with _ | _
  · have hu : utf8Valid b = true := by
      unfold isBinaryData at hbin
      rcases hu : utf8Valid b with _ | _
      · rw [hu] at hbin; simp at hbin
      · rfl
    rw [if_neg Bool.false_ne_true]
    split_ifs <;> simp_all
  · rfl

theorem decodeJWT_inversion (token : GoStr) (info : JwtInfo)
    (h : decodeJWT token = some info) :
    ∃ p0 p1 p2, splitOnByte 46 token = [p0, p1, p2] ∧
      decodeBase64URL p0 = .ok info.Header ∧
      decodeBase64URL p1 = .ok info.Payload ∧
      info.RawToken = truncateToken token := by
  unfold decodeJWT at h
  by_cases h0 : token = []
  · rw [if_pos h0] at h
    exact absurd h (by simp)
  · rw [if_neg h0] at h
    split at h
    · rename_i p0 p1 p2 heq
      refine ⟨p0, p1, p2, heq, ?_⟩
      dsimp only at h
      split at h
      · exact absurd h (by simp)
      · rename_i header hH
        split at h
        · exact absurd h (by simp)
        · rename_i payload hP
          rw [Option.some_inj] at h
          rw [← h]
          exact ⟨hH, hP, rfl⟩
    · exact absurd h (by simp)
/-- The binary short-circuit of `processBody`: binary bytes become
base64 text regardless of content type. -/
theorem processBody_binary (lib : Stdlib) (b ct : GoStr)
    (h : isBinaryData b = true) :
    processBody lib b ct = (.vstr (b64Encode b), true) := by
  unfold processBody
  rw [if_pos h]

/-! ## The claims -/

/-- C1 (corrected): a TokenDescriptor is emitted only if both of the
first two dot-separated segments base64url-decode and JSON-unmarshal
without error into a Go map value; but JSON `null` decodes into a `nil`
map without error, so a descriptor with an absent (`none`) header or
payload does appear, contrary to the original wording. -/
theorem jwt_descriptor_segments :
    ∀ (token : GoStr) (info : JwtInfo), decodeJWT token = some info →
      ∃ p0 p1 p2, splitOnByte 46 token = [p0, p1, p2] ∧
        decodeBase64URL p0 = .ok info.Header ∧
        decodeBase64URL p1 = .ok info.Payload := by
  intro token info h
  obtain ⟨p0, p1, p2, h1, h2, h3, -⟩ := decodeJWT_inversion token info h
  exact ⟨p0, p1, p2, h1, h2, h3⟩

/-- C1 counterexample: the token whose first two segments are the
base64url encoding of `null` yields a descriptor with `Header = none`
and `Payload = none` — a partially populated (nil) record the claim
says never appears. -/
theorem jwt_null_segments_descriptor :
    decodeJWT (ascii "bnVsbA.bnVsbA.sig") =
      some { RawToken := ascii "bnVsbA.bnVsbA.sig",
             Header := none, Payload := none } := by rfl

theorem jwt_descriptor_segments_witness :
    ∃ p0 p1 p2, splitOnByte 46 (ascii "e30.e30.x") = [p0, p1, p2] ∧
      decodeBase64URL p0 = .ok ({ RawToken := ascii "e30.e30.x", Header := some [], Payload := some [] } : JwtInfo).Header ∧
      decodeBase64URL p1 = .ok ({ RawToken := ascii "e30.e30.x", Header := some [], Payload := some [] } : JwtInfo).Payload :=
  jwt_descriptor_segments (ascii "e30.e30.x") _ (by rfl)

/-- C2 (corrected): the structural gate rejects any token that does not
split into exactly 3 dot-separated segments, and a token with an empty
first or second segment yields no descriptor (its decode fails); but an
empty third (signature) segment is accepted, contrary to the original
wording. -/
theorem jwt_structural_gate :
    (∀ token : GoStr, (splitOnByte 46 token).length ≠ 3 →
      decodeJWT token = none) ∧
    (∀ (token p0 p1 p2 : GoStr), splitOnByte 46 token = [p0, p1, p2] →
      p0 = [] ∨ p1 = [] → decodeJWT token = none) := by
  constructor
  · intro token hlen
    unfold decodeJWT
    by_cases h0 : token = []
    · rw [if_pos h0]
    · rw [if_neg h0]
      split
      · rename_i p0 p1 p2 heq
        exact absurd (by rw [heq]; rfl) hlen
      · rfl
  · intro token p0 p1 p2 hsplit hemp
    have h0 : token ≠ [] := by
      intro he
      subst he
      rw [show splitOnByte 46 [] = [[]] from rfl] at hsplit
      simp at hsplit
    unfold decodeJWT
    rw [if_neg h0]
    split
    · rename_i q0 q1 q2 heq
      rw [hsplit] at heq
      injection heq with e0 rest1
      injection rest1 with e1 rest2
      dsimp only
      rcases hemp with rfl | rfl
      · rw [← e0, show decodeBase64URL [] = Except.error () from rfl]
      · rw [← e1]
        cases decodeBase64URL q0 <;> rfl
    · rfl

/-- C2 counterexample: a token with an empty third segment is accepted
and yields a descriptor, so the gate does not require 3 non-empty
segments. -/
theorem jwt_empty_signature_accepted :
    (decodeJWT (ascii "e30.e30.")).isSome = true := by rfl

theorem jwt_structural_gate_witness :
    decodeJWT (ascii "only.two") = none ∧ decodeJWT (ascii ".e30.x") = none :=
  ⟨jwt_structural_gate.1 (ascii "only.two") (by decide),
   jwt_structural_gate.2 (ascii ".e30.x") [] (ascii "e30") (ascii "x")
     (by rfl) (Or.inl rfl)⟩

/-- C3 (confirmed): for every non-empty body the descriptor's `Size` is
the original length, and when the length exceeds the configured cap the
descriptor is marked truncated and its content and binary flag are
computed from the first cap bytes only. -/
theorem parseBody_size_truncation :
    ∀ (lib : Stdlib) (s : BodyService) (B ct : GoStr), B ≠ [] →
      ∃ info, ParseBody lib s B ct = some info ∧ info.Size = B.length ∧
        (B.length > s.maxBodySize →
          info.Truncated = true ∧
          info.Content = (processBody lib (B.take s.maxBodySize) ct).1 ∧
          info.IsBinary = (processBody lib (B.take s.maxBodySize) ct).2) := by
  intro lib s B ct hB
  unfold ParseBody
  rw [if_neg hB]
  refine ⟨_, rfl, rfl, fun hlen => ⟨by simp [hlen], ?_, ?_⟩⟩
  · rw [if_pos hlen]
  · rw [if_pos hlen]

theorem parseBody_size_truncation_witness :
    ∃ info, ParseBody stubLib ⟨1⟩ [65, 65] [] = some info ∧
      info.Size = ([65, 65] : GoStr).length ∧
      (([65, 65] : GoStr).length > (⟨1⟩ : BodyService).maxBodySize →
        info.Truncated = true ∧
        info.Content = (processBody stubLib (([65, 65] : GoStr).take
          (⟨1⟩ : BodyService).maxBodySize) []).1 ∧
        info.IsBinary = (processBody stubLib (([65, 65] : GoStr).take
          (⟨1⟩ : BodyService).maxBodySize) []).2) :=
  parseBody_size_truncation stubLib ⟨1⟩ [65, 65] [] (by decide)

/-- C4 (corrected): binary classification runs before content-type
dispatch and short-circuits it, but on the size-capped bytes: whenever
the first `min(len, cap)` bytes classify as binary — within the cap the
capped bytes are the whole body — the descriptor has `IsBinary = true`
and content equal to the base64 encoding of those capped bytes,
regardless of the declared content type; and any byte sequence
containing NUL classifies as binary. A body whose only NUL lies beyond
the cap therefore gets `IsBinary = false`, contrary to the original
wording's unqualified "any input containing a 0x00 byte". -/
theorem binary_classification :
    (∀ (lib : Stdlib) (s : BodyService) (B ct : GoStr), B ≠ [] →
      isBinaryData (B.take s.maxBodySize) = true →
      ParseBody lib s B ct = some { ContentType := ct, Size := B.length, Content := .vstr (b64Encode (B.take s.maxBodySize)), IsBinary := true, Truncated := decide (B.length > s.maxBodySize) }) ∧
    (∀ B : GoStr, B.contains 0 = true → isBinaryData B = true) := by
  constructor
  · intro lib s B ct hB hbin
    unfold ParseBody
    rw [if_neg hB]
    dsimp only
    by_cases hlen : B.length > s.maxBodySize
    · rw [if_pos hlen, processBody_binary lib (B.take s.maxBodySize) ct hbin]
    · have htake : B.take s.maxBodySize = B := List.take_of_length_le (by omega)
      rw [htake] at hbin ⊢
      rw [if_neg hlen, processBody_binary lib B ct hbin]
  · intro B h0
    unfold isBinaryData
    rw [h0]
    rfl

/-- C4 counterexample: with cap 1, the body `[0x41, 0x00]` contains a
NUL byte (and is binary as a whole), yet its descriptor reports
`IsBinary = false` because only the first byte is classified. -/
theorem nul_beyond_cap_not_binary :
    isBinaryData [65, 0] = true ∧
    ParseBody stubLib ⟨1⟩ [65, 0] [] = some { ContentType := [], Size := 2, Content := .vstr [65], IsBinary := false, Truncated := true } :=
  ⟨by rfl, by rfl⟩

theorem binary_classification_witness :
    ParseBody stubLib ⟨1⟩ [0, 65] [] = some { ContentType := [], Size := ([0, 65] : GoStr).length, Content := .vstr (b64Encode (([0, 65] : GoStr).take (⟨1⟩ : BodyService).maxBodySize)), IsBinary := true, Truncated := decide (([0, 65] : GoStr).length > (⟨1⟩ : BodyService).maxBodySize) } ∧
    ParseBody stubLib ⟨4⟩ [65, 0] [] = some { ContentType := [], Size := ([65, 0] : GoStr).length, Content := .vstr (b64Encode (([65, 0] : GoStr).take (⟨4⟩ : BodyService).maxBodySize)), IsBinary := true, Truncated := decide (([65, 0] : GoStr).length > (⟨4⟩ : BodyService).maxBodySize) } ∧
    isBinaryData [0] = true :=
  ⟨binary_classification.1 stubLib ⟨1⟩ [0, 65] [] (by decide) (by rfl),
   binary_classification.1 stubLib ⟨4⟩ [65, 0] [] (by decide) (by rfl),
   binary_classification.2 [0] (by rfl)⟩

/-- C5 (confirmed): a multipart content type without a `boundary`
parameter yields the whole raw string; a part with an empty field name
is skipped; a stream-level parse error makes the result the entire raw
string regardless of parts already accumulated. -/
theorem multipart_fallbacks :
    (∀ (lib : Stdlib) (data : GoStr) (params : List (GoStr × GoStr)),
      lookupAssoc params (ascii "boundary") = none →
      parseMultipartForm lib data params = .vstr data) ∧
    (∀ (data : GoStr) (p : MPart) (rest : List PartEvent)
        (acc : List (GoStr × GoVal)), p.formName = [] →
      mpRun data (.part p :: rest) acc = mpRun data rest acc) ∧
    (∀ (data : GoStr) (rest : List PartEvent) (acc : List (GoStr × GoVal)),
      mpRun data (.readFail :: rest) acc = .vstr data) := by
  refine ⟨?_, ?_, ?_⟩
  · intro lib data params h
    unfold parseMultipartForm
    rw [h]
  · intro data p rest acc hname
    conv_lhs => rw [mpRun.eq_def]
    dsimp only
    rcases hre : p.readErr with _ | _
    · rw [if_neg Bool.false_ne_true, if_pos hname]
    · rw [if_pos rfl]
  · intro data rest acc
    rfl

theorem multipart_fallbacks_witness :
    parseMultipartForm stubLib (ascii "raw") [] = .vstr (ascii "raw") ∧
    mpRun (ascii "d") (.part ⟨[], [], false, [65]⟩ :: []) [] = mpRun (ascii "d") [] [] ∧
    mpRun (ascii "d") (.readFail :: []) [(ascii "k", .vnull)] = .vstr (ascii "d") :=
  ⟨multipart_fallbacks.1 stubLib (ascii "raw") [] (by rfl),
   multipart_fallbacks.2.1 (ascii "d") ⟨[], [], false, [65]⟩ [] [] (by rfl),
   multipart_fallbacks.2.2 (ascii "d") [] [(ascii "k", .vnull)]⟩

/-- C6 (confirmed): ParseBody is a total function: the empty body gives
no descriptor, every non-empty body gives one; a JSON unmarshal error, a
query-string parse error, and a multipart stream error each degrade to
the raw string instead of an error. -/
theorem parseBody_total_degrades :
    (∀ (lib : Stdlib) (s : BodyService) (ct : GoStr),
      ParseBody lib s [] ct = none) ∧
    (∀ (lib : Stdlib) (s : BodyService) (B ct : GoStr), B ≠ [] →
      (ParseBody lib s B ct).isSome = true) ∧
    (∀ data : GoStr, unmarshalAny data = .error () →
      parseJSON data = .vstr data) ∧
    (∀ (lib : Stdlib) (data : GoStr), lib.parseQuery data = .error () →
      parseFormURLEncoded lib data = .vstr data) ∧
    (∀ (lib : Stdlib) (data : GoStr) (params : List (GoStr × GoStr))
        (b : GoStr) (rest : List PartEvent),
      lookupAssoc params (ascii "boundary") = some b →
      lib.nextParts data b = .readFail :: rest →
      parseMultipartForm lib data params = .vstr data) := by
  refine ⟨?_, ?_, ?_, ?_, ?_⟩
  · intro lib s ct
    rfl
  · intro lib s B ct hB
    unfold ParseBody
    rw [if_neg hB]
    rfl
  · intro data h
    unfold parseJSON
    rw [h]
  · intro lib data h
    unfold parseFormURLEncoded
    rw [h]
  · intro lib data params b rest hb hn
    unfold parseMultipartForm
    rw [hb]
    dsimp only
    rw [hn]
    rfl

theorem parseBody_total_degrades_witness :
    (ParseBody stubLib ⟨10⟩ [65] []).isSome = true ∧
    parseJSON (ascii "not json") = .vstr (ascii "not json") ∧
    parseFormURLEncoded stubLib (ascii "a=b") = .vstr (ascii "a=b") ∧
    parseMultipartForm ⟨fun _ => .error (), fun _ => .error (),
      fun _ _ => [.readFail]⟩ (ascii "d") [(ascii "boundary", ascii "B")] =
      .vstr (ascii "d") :=
  ⟨parseBody_total_degrades.2.1 stubLib ⟨10⟩ [65] [] (by decide),
   parseBody_total_degrades.2.2.1 (ascii "not json") (by rfl),
   parseBody_total_degrades.2.2.2.1 stubLib (ascii "a=b") (by rfl),
   parseBody_total_degrades.2.2.2.2 ⟨fun _ => .error (), fun _ => .error (),
     fun _ _ => [.readFail]⟩ (ascii "d") [(ascii "boundary", ascii "B")]
     (ascii "B") [] (by rfl) (by rfl)⟩

/-- C7 (confirmed): a status-override header value parsing as an
integer in [200, 599] is used as the response status; a non-numeric or
out-of-range value falls back to 200; in particular "404" gives 404
while "700" and "abc" give 200 — never an error. -/
theorem status_override :
    (∀ (s : GoStr) (n : Int), goAtoi s = .ok n → 200 ≤ n → n ≤ 599 →
      getCustomStatusCode s = n) ∧
    (∀ (s : GoStr) (n : Int), goAtoi s = .ok n → (n < 200 ∨ 599 < n) →
      getCustomStatusCode s = 200) ∧
    (∀ s : GoStr, goAtoi s = .error () → getCustomStatusCode s = 200) ∧
    getCustomStatusCode (ascii "404") = 404 ∧
    getCustomStatusCode (ascii "700") = 200 ∧
    getCustomStatusCode (ascii "abc") = 200 := by
  refine ⟨?_, ?_, ?_, by rfl, by rfl, by rfl⟩
  · intro s n h hlo hhi
    have hs : s ≠ [] := by
      intro he
      subst he
      rw [show goAtoi [] = .error () from rfl] at h
      exact absurd h (by simp)
    unfold getCustomStatusCode
    rw [if_neg hs, h]
    dsimp only
    rw [if_neg (by omega)]
  · intro s n h hout
    have hs : s ≠ [] := by
      intro he
      subst he
      rw [show goAtoi [] = .error () from rfl] at h
      exact absurd h (by simp)
    unfold getCustomStatusCode
    rw [if_neg hs, h]
    dsimp only
    rw [if_pos (by omega)]
  · intro s h
    unfold getCustomStatusCode
    by_cases hs : s = []
    · rw [if_pos hs]
    · rw [if_neg hs, h]

theorem status_override_witness :
    getCustomStatusCode (ascii "204") = 204 ∧
    getCustomStatusCode (ascii "100") = 200 ∧
    getCustomStatusCode (ascii "x") = 200 :=
  ⟨status_override.1 (ascii "204") 204 (by rfl) (by decide) (by decide),
   status_override.2.1 (ascii "100") 100 (by rfl) (Or.inl (by decide)),
   status_override.2.2.1 (ascii "x") (by rfl)⟩

/-- A concrete environment in which both certificate files are present
but the configured pair does not load. -/
def tlsEnvLoaded : TLSEnv :=
  { certFileOk := true
    keyFileOk := true
    loadKeyPair := .error ()
    rsaGenOk := false
    serialRandOk := false
    serialRand := 0
    hostnameRes := .error ()
    now := 0
    keyPairReloadOk := false }

/-- A concrete environment in which the certificate file is absent and
every generation step succeeds. -/
def tlsEnvGen : TLSEnv :=
  { certFileOk := false
    keyFileOk := true
    loadKeyPair := .error ()
    rsaGenOk := true
    serialRandOk := true
    serialRand := 5
    hostnameRes := .error ()
    now := 0
    keyPairReloadOk := true }

/-- C8 (confirmed): with both configured files present the pair is
loaded and a malformed pair is returned as a hard failure; with either
file absent a self-signed certificate is generated whose subject equals
its issuer, whose serial is the 128-bit random value reduced below
2^128, whose validity runs from now to now plus 365 days, whose common
name is the resolved host name (with the fixed fallback on lookup
failure), and whose subject alternative names are the host name and
"localhost". -/
theorem certificate_provisioning :
    ∀ env : TLSEnv,
      (env.certFileOk = true → env.keyFileOk = true →
        GetOrGenerateCertificate env = env.loadKeyPair) ∧
      ((env.certFileOk = false ∨ env.keyFileOk = false) →
        env.rsaGenOk = true → env.serialRandOk = true → env.keyPairReloadOk = true →
        GetOrGenerateCertificate env = .ok
          { SerialNumber := env.serialRand % 2 ^ 128
            Subject := { Organization := [ascii "Echo Server"], CommonName := resolvedHostname env }
            Issuer := { Organization := [ascii "Echo Server"], CommonName := resolvedHostname env }
            NotBefore := env.now
            NotAfter := env.now + 365 * 24 * nsPerHour
            kuKeyEncipherment := true
            kuDigitalSignature := true
            extKeyUsageServerAuth := true
            BasicConstraintsValid := true
            DNSNames := [resolvedHostname env, ascii "localhost"] } ∧
        env.serialRand % 2 ^ 128 < 2 ^ 128) ∧
      (env.hostnameRes = .error () → resolvedHostname env = ascii "echo-server") := by
  intro env
  refine ⟨?_, ?_, ?_⟩
  · intro hc hk
    unfold GetOrGenerateCertificate
    rw [hc, hk]
    show (match env.loadKeyPair with
      | Except.error e => Except.error e
      | Except.ok cert => Except.ok cert) = env.loadKeyPair
    cases env.loadKeyPair <;> rfl
  · intro hcf hr hs hk
    refine ⟨?_, Nat.mod_lt _ (by norm_num)⟩
    unfold GetOrGenerateCertificate generateSelfSignedCertificate
    have hcond : (env.certFileOk && env.keyFileOk) = false := by
      rcases hcf with h | h <;> simp [h]
    rw [hcond, if_neg Bool.false_ne_true, hr, hs, hk]
    rfl
  · intro hh
    unfold resolvedHostname
    rw [hh]

theorem certificate_provisioning_witness :
    GetOrGenerateCertificate tlsEnvLoaded = tlsEnvLoaded.loadKeyPair ∧
    (GetOrGenerateCertificate tlsEnvGen = .ok
      { SerialNumber := tlsEnvGen.serialRand % 2 ^ 128
        Subject := { Organization := [ascii "Echo Server"], CommonName := resolvedHostname tlsEnvGen }
        Issuer := { Organization := [ascii "Echo Server"], CommonName := resolvedHostname tlsEnvGen }
        NotBefore := tlsEnvGen.now
        NotAfter := tlsEnvGen.now + 365 * 24 * nsPerHour
        kuKeyEncipherment := true
        kuDigitalSignature := true
        extKeyUsageServerAuth := true
        BasicConstraintsValid := true
        DNSNames := [resolvedHostname tlsEnvGen, ascii "localhost"] } ∧
      tlsEnvGen.serialRand % 2 ^ 128 < 2 ^ 128) ∧
    resolvedHostname tlsEnvGen = ascii "echo-server" :=
  ⟨(certificate_provisioning tlsEnvLoaded).1 rfl rfl,
   (certificate_provisioning tlsEnvGen).2.1 (Or.inl rfl) rfl rfl rfl,
   (certificate_provisioning tlsEnvGen).2.2 rfl⟩

/-- C10 (confirmed): for a body longer than the cap, classification and
parsing see only the first cap bytes: the descriptor's content and
binary flag are computed from the truncated prefix, and in particular a
body whose only NUL byte lies beyond the cap is binary as a whole yet
reported with IsBinary = false. -/
theorem truncated_classification :
    (∀ (lib : Stdlib) (s : BodyService) (B ct : GoStr), B ≠ [] →
      B.length > s.maxBodySize →
      ParseBody lib s B ct = some { ContentType := ct, Size := B.length, Content := (processBody lib (B.take s.maxBodySize) ct).1, IsBinary := isBinaryData (B.take s.maxBodySize), Truncated := true }) ∧
    (isBinaryData [66, 0] = true ∧
      ParseBody stubLib ⟨1⟩ [66, 0] [] = some { ContentType := [], Size := 2, Content := .vstr [66], IsBinary := false, Truncated := true }) := by
  constructor
  · intro lib s B ct hB hlen
    unfold ParseBody
    rw [if_neg hB, if_pos hlen]
    dsimp only
    rw [decide_eq_true hlen, processBody_isBinary]
  · exact ⟨by rfl, by rfl⟩

theorem truncated_classification_witness :
    ParseBody stubLib ⟨1⟩ [67, 0] [] = some { ContentType := [], Size := ([67, 0] : GoStr).length, Content := (processBody stubLib (([67, 0] : GoStr).take (⟨1⟩ : BodyService).maxBodySize) []).1, IsBinary := isBinaryData (([67, 0] : GoStr).take (⟨1⟩ : BodyService).maxBodySize), Truncated := true } :=
  truncated_classification.1 stubLib ⟨1⟩ [67, 0] [] (by decide) (by decide)

end EchoServer
